import Mathlib

/-!
Shallow embedding of the Animatronic Sequencer (`src/sequencer.py`) in Lean 4.

The module coordinates Dynamixel-style servos grouped on shared serial buses.
We embed the pure control/data flow of the sequencer functions:

* `execute_sync_move`   → `executeSyncMove` (velocity profile + grouped writes)
* `wait_for_move_completion` → `pollCycle` / `pollAfter` (completion polling)
* `check_torque_status` → `checkTorqueStatus` (pre-flight safety gate)
* `process_sequence`    → `processItems` (recursive script interpreter)
* `run_animation`       → `runAnimation` (top-level run, modelled as an event trace)

Hardware I/O is modelled by oracles: a grouped read on a port either fails as a
whole (`none`, `txRxPacket != COMM_SUCCESS`) or yields per-id data.  For reads
that also consult `isAvailable`, the per-id data is an `Option ℕ`
(`none` = not available).  Python's `int()` on a non-negative quotient
truncates, which on naturals is `/` (floor division); exact rational
arithmetic stands in for IEEE floats.
-/

namespace Sequencer

/-- One record of `config/session_servos.json`
    (`{id, com_port, baud_rate, motor_type}`). -/
structure Servo where
  id : ℕ
  com_port : String
  baud_rate : ℕ
  motor_type : ℕ
deriving DecidableEq, Repr

/-- Python builds the manifest dict keyed by servo id (line 193) from a
    list of records, so a later record with the same id overrides an
    earlier one. -/
def manifestLookup (manifest : List Servo) (i : ℕ) : Option Servo :=
  manifest.foldl (fun acc s => if s.id = i then some s else acc) none

/-- Python dict insertion order: first occurrence of each key. -/
def insertionOrder (l : List String) : List String :=
  l.foldl (fun acc p => if acc.contains p then acc else acc ++ [p]) []

/-- `travel = abs(goal_pos - present_pos)` (line 86). -/
def travelOf (present : ℕ → ℤ) (i : ℕ) (goal : ℤ) : ℕ :=
  (goal - present i).natAbs

/-- The `max_travel` accumulator of lines 82–88: starts at 0, takes the max
    over the bus's sub-goal-set. -/
def maxTravel (subgoals : List (ℕ × ℤ)) (present : ℕ → ℤ) : ℕ :=
  subgoals.foldl (fun m g => max m (travelOf present g.1 g.2)) 0

/-- Line 93: `velocity = int(max(1, (travel / max_travel) * base_velocity))`.
    In exact arithmetic `(travel / maxT) * baseV` is the rational
    `travel * baseV / maxT`, and `int ∘ max 1` of a non-negative rational is
    `max 1 ∘ floor`, i.e. natural-number division. -/
def computeVelocity (travel maxT baseV : ℕ) : ℕ :=
  max 1 (travel * baseV / maxT)

/-- The velocity entries accumulated into `groupBulkWrite_Vel` for one bus
    (lines 91–98): one `(id, velocity)` pair per actuator of the sub-goal-set,
    in insertion order. -/
def portVelEntries (subgoals : List (ℕ × ℤ)) (present : ℕ → ℤ) (baseV : ℕ) :
    List (ℕ × ℕ) :=
  subgoals.map fun g =>
    (g.1, computeVelocity (travelOf present g.1 g.2) (maxTravel subgoals present) baseV)

/-- A grouped write transaction issued on a bus: the velocity-register
    `txPacket` (line 105) or the goal-position `txPacket` (line 106). -/
inductive BusTx where
  | velWrite (port : String) (entries : List (ℕ × ℕ))
  | posWrite (port : String) (goals : List (ℕ × ℤ))
deriving DecidableEq, Repr

/-- The port a transaction is addressed to. -/
def txPort : BusTx → String
  | .velWrite p _ => p
  | .posWrite p _ => p

/-- Lines 67–76 for one port: grouped-read present positions; on comm
    failure (`txRxPacket != COMM_SUCCESS`) the bus is skipped (`continue`);
    with `max_travel > 0` the velocity write then the position write are
    issued; with `max_travel == 0` nothing is written. -/
def portTxs (port : String) (subgoals : List (ℕ × ℤ))
    (readPos : String → Option (ℕ → ℤ)) (baseV : ℕ) : List BusTx :=
  match readPos port with
  | none => []
  | some present =>
    if 0 < maxTravel subgoals present then
      [BusTx.velWrite port (portVelEntries subgoals present baseV),
       BusTx.posWrite port subgoals]
    else []

/-- The sub-goal-set of one bus (lines 60–65): goal entries whose id resolves
    in the manifest to a servo on this port, in goal order. -/
def goalsOnPort (goals : List (ℕ × ℤ)) (manifest : List Servo) (p : String) :
    List (ℕ × ℤ) :=
  goals.filter fun g =>
    match manifestLookup manifest g.1 with
    | some s => s.com_port = p
    | none => false

/-- The keys of `moves_by_port`: ports of manifest-resolvable goal ids, in
    first-appearance order (Python dict insertion order). -/
def movePorts (goals : List (ℕ × ℤ)) (manifest : List Servo) : List String :=
  insertionOrder (goals.filterMap fun g => (manifestLookup manifest g.1).map (·.com_port))

/-- Function `execute_sync_move` (lines 59–107).  Returns the Python result (always
    `True`, line 107) paired with the list of grouped write transactions
    issued, bus by bus.  A port absent from `port_handlers` is skipped
    (line 68). -/
def executeSyncMove (goals : List (ℕ × ℤ)) (baseV : ℕ) (manifest : List Servo)
    (openPorts : List String) (readPos : String → Option (ℕ → ℤ)) :
    Bool × List BusTx :=
  (true,
    (movePorts goals manifest).foldl
      (fun acc p =>
        if openPorts.contains p then
          acc ++ portTxs p (goalsOnPort goals manifest p) readPos baseV
        else acc)
      [])

/-! ### Completion poller (`wait_for_move_completion`, lines 110–141) -/

/-- Line 111: `servos_to_check = set(servo_goals.keys())` — the pending set is
    seeded from *all* goal-set keys (no manifest restriction happens here). -/
def pendingInit (goals : List (ℕ × ℤ)) : List ℕ :=
  (goals.map Prod.fst).dedup

/-- The ids of `pending0` that resolve in the manifest to a servo on port `p`. -/
def portIdsOn (manifest : List Servo) (ids : List ℕ) (p : String) : List ℕ :=
  ids.filter fun i =>
    match manifestLookup manifest i with
    | some s => s.com_port = p
    | none => false

/-- Lines 112–117: `servos_by_port`, built once from the initial pending set,
    grouping the manifest-resolvable ids by port. -/
def servosByPort (manifest : List Servo) (pending0 : List ℕ) :
    List (String × List ℕ) :=
  (insertionOrder (pending0.filterMap fun i =>
      (manifestLookup manifest i).map (·.com_port))).map
    fun p => (p, portIdsOn manifest pending0 p)

/-- One port's slice of a polling cycle (lines 121–138): poll the pending ids
    on this port; skip if none are pending, if the port is not open, or if the
    grouped read fails; otherwise remove every polled id whose moving flag is
    available and reads 0. -/
def pollStep (openPorts : List String) (read : String → Option (ℕ → Option ℕ))
    (pend : List ℕ) (pp : String × List ℕ) : List ℕ :=
  if (pend.filter fun i => pp.2.contains i).isEmpty then pend
  else if openPorts.contains pp.1 then
    match read pp.1 with
    | none => pend
    | some flags => pend.filter fun i => ¬ (pp.2.contains i ∧ flags i = some 0)
  else pend

/-- One full pass of the `while servos_to_check:` body (lines 120–138). -/
def pollCycle (ports : List (String × List ℕ)) (openPorts : List String)
    (read : String → Option (ℕ → Option ℕ)) (pending : List ℕ) : List ℕ :=
  ports.foldl (pollStep openPorts read) pending

/-- The pending set after `n` polling cycles, with `reads k` the grouped-read
    oracle of cycle `k`. -/
def pollAfter (ports : List (String × List ℕ)) (openPorts : List String)
    (reads : ℕ → String → Option (ℕ → Option ℕ)) (pending0 : List ℕ) :
    ℕ → List ℕ
  | 0 => pending0
  | n + 1 => pollCycle ports openPorts (reads n) (pollAfter ports openPorts reads pending0 n)

/-- Function `wait_for_move_completion` returns iff some cycle empties the pending
    set (the `while servos_to_check:` loop condition, line 120). -/
def pollerTerminates (goals : List (ℕ × ℤ)) (manifest : List Servo)
    (openPorts : List String)
    (reads : ℕ → String → Option (ℕ → Option ℕ)) : Prop :=
  ∃ n, pollAfter (servosByPort manifest (pendingInit goals)) openPorts reads
        (pendingInit goals) n = []

/-! ### Safety gate and top-level run (`check_torque_status`, `run_animation`) -/

/-- Line 41: the servos of the manifest attached to port `p`. -/
def servosOnPort (manifest : List Servo) (p : String) : List Servo :=
  manifest.filter fun s => s.com_port = p

/-- Function `check_torque_status` (lines 37–56): per open port, grouped-read the
    torque-enable register of every servo on the port; a failed transaction
    (`none`), an unavailable id, or a value other than 1 fails the check. -/
def checkTorqueStatus (manifest : List Servo) (ports : List String)
    (read : String → Option (ℕ → Option ℕ)) : Bool :=
  ports.all fun p =>
    match read p with
    | none => false
    | some flags => (servosOnPort manifest p).all fun s => flags s.id = some 1

/-- Line 200: `unique_ports = {s['com_port']: s['baud_rate'] for s in ...}` —
    the distinct ports of the manifest, in first-appearance order. -/
def uniquePorts (manifest : List Servo) : List String :=
  insertionOrder (manifest.map (·.com_port))

/-- Lines 201–207: the ports whose `openPort()` + `setBaudRate()` both
    succeeded (`openOk` abstracts the two driver calls); a failed port is
    logged and simply not added to `port_handlers`. -/
def openedPorts (manifest : List Servo) (openOk : String → Bool) : List String :=
  (uniquePorts manifest).filter fun p => openOk p

/-- An observable event of a top-level run: a connection being opened or
    closed, the safety gate running (with its verdict), a grouped write
    transaction, or an exception escaping the script interpreter. -/
inductive RunEvent where
  | openEv (port : String)
  | closeEv (port : String)
  | gateEv (ok : Bool)
  | writeEv (tx : BusTx)
  | raiseEv
deriving DecidableEq, Repr

/-- Function `run_animation` (lines 186–232) as the event trace of one run, after a
    successful config load.  `scriptTxs` are the write transactions the script
    processing would issue; `scriptRaises` models an exception escaping
    `process_sequence` (the code has no try/finally around lines 218–229, so
    such an exception skips the `closePort` loop of line 231). -/
def runAnimation (manifest : List Servo) (openOk : String → Bool)
    (torqueRead : String → Option (ℕ → Option ℕ))
    (scriptTxs : List BusTx) (scriptRaises : Bool) : List RunEvent :=
  if (openedPorts manifest openOk).length = (uniquePorts manifest).length then
    if checkTorqueStatus manifest (openedPorts manifest openOk) torqueRead then
      if scriptRaises then
        (openedPorts manifest openOk).map RunEvent.openEv
          ++ [RunEvent.gateEv true] ++ scriptTxs.map RunEvent.writeEv
          ++ [RunEvent.raiseEv]
      else
        (openedPorts manifest openOk).map RunEvent.openEv
          ++ [RunEvent.gateEv true] ++ scriptTxs.map RunEvent.writeEv
          ++ (openedPorts manifest openOk).map RunEvent.closeEv
    else
      (openedPorts manifest openOk).map RunEvent.openEv
        ++ [RunEvent.gateEv false]
        ++ (openedPorts manifest openOk).map RunEvent.closeEv
  else
    (openedPorts manifest openOk).map RunEvent.openEv
      ++ (openedPorts manifest openOk).map RunEvent.closeEv

/-! ### Sequence interpreter (`process_sequence`, lines 144–183) -/

/-- Python `int()` on a rational: truncation toward zero. -/
def pyTrunc (q : ℚ) : ℤ :=
  if q < 0 then -⌊-q⌋ else ⌊q⌋

/-- Modelled from the spec (§4.5, §8): the spec's `round(...)`, glossed
    "round-half-up" in §8's concrete scenario.  Used only to compare the
    spec's claimed rounding with the code's `int()` truncation. -/
def specRound (q : ℚ) : ℤ :=
  ⌊q + 1 / 2⌋

/-- Line 28. -/
def DEFAULT_BASE_VELOCITY : ℕ := 150

/-- Lines 162–163: entering a nested script multiplies the accumulated
    multiplier by `step.get('speed', 100) / 100.0`. -/
def nestedMult (m speedPercent : ℚ) : ℚ :=
  m * (speedPercent / 100)

/-- Lines 170–171: `final_velocity = int(step.get('velocity', base_velocity)
    * speed_multiplier)`. -/
def leafVelocity (velocityOverride : Option ℕ) (baseV : ℕ) (m : ℚ) : ℤ :=
  pyTrunc ((velocityOverride.getD baseV : ℕ) * m)

/-- A step of a motion script: a leaf goal-set file (`.json`) with an
    optional velocity override, or a nested script file (`.toml`) with a
    speed percentage and the nested file's own optional `base_velocity`.
    Inter-step delays and parse failures are orthogonal to the velocity
    claims and are not modelled. -/
inductive ScriptItem where
  | leafStep (goals : List (ℕ × ℤ)) (velocityOverride : Option ℕ)
  | nestedStep (speedPercent : ℚ) (baseVelocity : Option ℕ) (substeps : List ScriptItem)

/-- Function `process_sequence` restricted to its executor calls: for every leaf step,
    in order, the goal set and the `final_velocity` passed to
    `execute_sync_move`; a nested step recurses with the nested file's own
    base velocity (default 150) and multiplier `m * (speed / 100)`. -/
def processItems (baseV : ℕ) (m : ℚ) : List ScriptItem → List (List (ℕ × ℤ) × ℤ)
  | [] => []
  | .leafStep goals ov :: rest =>
      (goals, leafVelocity ov baseV m) :: processItems baseV m rest
  | .nestedStep sp bv sub :: rest =>
      processItems (bv.getD DEFAULT_BASE_VELOCITY) (nestedMult m sp) sub
        ++ processItems baseV m rest

/-- The leaves of a script, each with its velocity override, the base
    velocity of its enclosing script, and the list of speed percentages of
    the scripts entered on the way to it, outermost first.  Written as an
    independent recursion over the script tree to compare against
    `processItems`. -/
def leafInfos (baseV : ℕ) : List ScriptItem → List (Option ℕ × ℕ × List ℚ)
  | [] => []
  | .leafStep _ ov :: rest => (ov, baseV, []) :: leafInfos baseV rest
  | .nestedStep sp bv sub :: rest =>
      (leafInfos (bv.getD DEFAULT_BASE_VELOCITY) sub).map
          (fun t => (t.1, t.2.1, sp :: t.2.2))
        ++ leafInfos baseV rest

/-- The multiplier accumulated by entering scripts with the given speed
    percentages, starting from `m`. -/
def pathMult (m : ℚ) (path : List ℚ) : ℚ :=
  path.foldl nestedMult m

/-! ### Concrete fixtures used by witnesses and counterexamples -/

/-- Three servos sharing one bus, as in the spec's §8 concrete scenario. -/
def exampleManifest : List Servo :=
  [⟨1, "COM1", 57600, 0⟩, ⟨2, "COM1", 57600, 0⟩, ⟨3, "COM1", 57600, 0⟩]

/-! ## Theorems -/

/-! ### Helper lemmas -/

/-- Membership in a guarded fold of appended blocks comes from the seed or from
    one block whose guard held. -/
theorem mem_foldl_cond_append {α β : Type} (f : α → List β) (P : α → Bool)
    (l : List α) (init : List β) (x : β)
    (hx : x ∈ l.foldl (fun acc a => if P a then acc ++ f a else acc) init) :
    x ∈ init ∨ ∃ a ∈ l, P a = true ∧ x ∈ f a := by
  induction l generalizing init with
  | nil => exact Or.inl hx
  | cons a t ih =>
    simp only [List.foldl_cons] at hx
    rcases ih _ hx with h | ⟨b, hb, hPb, hxb⟩
    · by_cases hP : P a = true
      · rw [if_pos hP] at h
        rcases List.mem_append.1 h with h | h
        · exact Or.inl h
        · exact Or.inr ⟨a, List.mem_cons_self a t, hP, h⟩
      · rw [if_neg hP] at h
        exact Or.inl h
    · exact Or.inr ⟨b, List.mem_cons_of_mem a hb, hPb, hxb⟩

/-- Equation lemma: a failed present-position read on a bus issues nothing. -/
theorem portTxs_of_read_none {p : String} {subgoals : List (ℕ × ℤ)}
    {readPos : String → Option (ℕ → ℤ)} {baseV : ℕ}
    (hread : readPos p = none) :
    portTxs p subgoals readPos baseV = [] := by
  unfold portTxs; rw [hread]

/-- Equation lemma: a successful present-position read issues the velocity and
    goal writes when some actuator must move, nothing otherwise. -/
theorem portTxs_of_read_some {p : String} {subgoals : List (ℕ × ℤ)}
    {readPos : String → Option (ℕ → ℤ)} {baseV : ℕ} {present : ℕ → ℤ}
    (hread : readPos p = some present) :
    portTxs p subgoals readPos baseV =
      if 0 < maxTravel subgoals present then
        [BusTx.velWrite p (portVelEntries subgoals present baseV),
         BusTx.posWrite p subgoals]
      else [] := by
  unfold portTxs; rw [hread]

/-- Every transaction produced for a port is addressed to that port. -/
theorem txPort_of_mem_portTxs {p : String} {subgoals : List (ℕ × ℤ)}
    {readPos : String → Option (ℕ → ℤ)} {baseV : ℕ} {tx : BusTx}
    (h : tx ∈ portTxs p subgoals readPos baseV) : txPort tx = p := by
  cases hr : readPos p with
  | none => rw [portTxs_of_read_none hr] at h; simp at h
  | some present =>
    rw [portTxs_of_read_some hr] at h
    by_cases hm : 0 < maxTravel subgoals present
    · rw [if_pos hm] at h
      simp only [List.mem_cons, List.not_mem_nil, or_false] at h
      rcases h with rfl | rfl <;> rfl
    · rw [if_neg hm] at h; simp at h

/-- Every transaction of `executeSyncMove` comes from some open port of
    `movePorts`. -/
theorem mem_executeSyncMove {goals : List (ℕ × ℤ)} {baseV : ℕ}
    {manifest : List Servo} {openPorts : List String}
    {readPos : String → Option (ℕ → ℤ)} {tx : BusTx}
    (h : tx ∈ (executeSyncMove goals baseV manifest openPorts readPos).2) :
    ∃ p ∈ movePorts goals manifest, openPorts.contains p = true ∧
      tx ∈ portTxs p (goalsOnPort goals manifest p) readPos baseV := by
  simp only [executeSyncMove] at h
  rcases mem_foldl_cond_append
      (fun p => portTxs p (goalsOnPort goals manifest p) readPos baseV)
      (fun p => openPorts.contains p) (movePorts goals manifest) [] tx h with
    h0 | ⟨p, hp, hP, hmem⟩
  · simp at h0
  · exact ⟨p, hp, hP, hmem⟩

/-- C9: in the Synchronized Move Executor, if the present-position read of a
    bus succeeds and `max_travel` is 0 for its sub-goal-set (every actuator
    already at its goal), then no write transaction of the whole move is
    addressed to that bus. -/
theorem C9_no_writes_for_zero_travel_bus (goals : List (ℕ × ℤ)) (baseV : ℕ)
    (manifest : List Servo) (openPorts : List String)
    (readPos : String → Option (ℕ → ℤ)) (p : String) (present : ℕ → ℤ)
    (hread : readPos p = some present)
    (hzero : maxTravel (goalsOnPort goals manifest p) present = 0) :
    ((executeSyncMove goals baseV manifest openPorts readPos).2.filter
        fun tx => txPort tx == p) = [] := by
  rw [List.filter_eq_nil_iff]
  intro tx htx
  obtain ⟨q, hq, hopen, hmem⟩ := mem_executeSyncMove htx
  have hq' : txPort tx = q := txPort_of_mem_portTxs hmem
  simp only [beq_iff_eq, hq']
  intro hqp
  rw [hqp] at hmem
  rw [portTxs_of_read_some hread, hzero] at hmem
  simp at hmem

/-- C9 witness: concrete run with one servo already at its goal position —
    no transaction is addressed to its bus. -/
theorem C9_witness :
    ((executeSyncMove [((1:ℕ), (5:ℤ))] 150 exampleManifest ["COM1"]
        (fun _ => some fun _ => 5)).2.filter fun tx => txPort tx == "COM1") = [] :=
  C9_no_writes_for_zero_travel_bus [(1,5)] 150 exampleManifest ["COM1"]
    (fun _ => some fun _ => 5) "COM1" (fun _ => 5) rfl rfl

/-- C10: the executor returns success for every input — empty goal
    sets, ids absent from the manifest, and failed reads included — so the
    caller always proceeds to the Completion Poller. -/
theorem C10_executor_always_true (goals : List (ℕ × ℤ)) (baseV : ℕ)
    (manifest : List Servo) (openPorts : List String)
    (readPos : String → Option (ℕ → ℤ)) :
    (executeSyncMove goals baseV manifest openPorts readPos).1 = true := rfl

/-- C1 counterexample: for travels 100, 50, 25 on one bus with base
    velocity 150, the code writes velocities 150, 75, 37 — actuator 3 gets
    37 (truncation), not the 38 the round-half-up claim predicts. -/
theorem C1_counterexample_truncation :
    (executeSyncMove [(1,100),(2,50),(3,25)] 150 exampleManifest ["COM1"]
        (fun _ => some fun _ => 0)).2
      = [BusTx.velWrite "COM1" [(1,150),(2,75),(3,37)],
         BusTx.posWrite "COM1" [(1,100),(2,50),(3,25)]]
    ∧ BusTx.velWrite "COM1" [(1,150),(2,75),(3,38)]
        ∉ (executeSyncMove [(1,100),(2,50),(3,25)] 150 exampleManifest ["COM1"]
            (fun _ => some fun _ => 0)).2 :=
  ⟨rfl, by decide⟩

/-- C1 (amended): every velocity write of the Executor carries the per-bus
    profile entries, and in a sub-goal-set with positive `max_travel` each
    actuator receives `max 1 (travel * baseV / maxTravel)` (truncating
    division); the velocity is at least 1, and the actuator achieving
    `max_travel` receives exactly the base velocity (base velocity ≥ 1). -/
theorem C1_velocity_profile (goals : List (ℕ × ℤ)) (baseV : ℕ)
    (manifest : List Servo) (openPorts : List String)
    (readPos : String → Option (ℕ → ℤ)) (hb : 1 ≤ baseV) :
    (∀ p es, BusTx.velWrite p es ∈ (executeSyncMove goals baseV manifest openPorts readPos).2 →
       ∃ present, readPos p = some present ∧
         0 < maxTravel (goalsOnPort goals manifest p) present ∧
         es = portVelEntries (goalsOnPort goals manifest p) present baseV) ∧
    (∀ (subgoals : List (ℕ × ℤ)) (present : ℕ → ℤ),
       0 < maxTravel subgoals present →
       ∀ e ∈ portVelEntries subgoals present baseV,
         1 ≤ e.2 ∧
         ∃ g, (e.1, g) ∈ subgoals ∧
           e.2 = max 1 (travelOf present e.1 g * baseV / maxTravel subgoals present) ∧
           (travelOf present e.1 g = maxTravel subgoals present → e.2 = baseV)) := by
  constructor
  · intro p es hmem'
    obtain ⟨q, hq, hopen, hmem⟩ := mem_executeSyncMove hmem'
    have hq' : p = q := txPort_of_mem_portTxs hmem
    subst hq'
    cases hr : readPos p with
    | none => rw [portTxs_of_read_none hr] at hmem; simp at hmem
    | some present =>
      rw [portTxs_of_read_some hr] at hmem
      by_cases hm : 0 < maxTravel (goalsOnPort goals manifest p) present
      · rw [if_pos hm] at hmem
        refine ⟨present, rfl, hm, ?_⟩
        simp only [List.mem_cons, List.not_mem_nil, or_false] at hmem
        rcases hmem with h | h
        · injection h with h1 h2
        · exact absurd h (by simp)
      · rw [if_neg hm] at hmem; simp at hmem
  · intro subgoals present hmax e he
    obtain ⟨g, hg, rfl⟩ := List.mem_map.1 he
    refine ⟨le_max_left 1 _, g.2, by simpa using hg, rfl, fun ht => ?_⟩
    show max 1 (travelOf present g.1 g.2 * baseV / maxTravel subgoals present) = baseV
    rw [ht, Nat.mul_div_cancel_left baseV hmax]
    exact max_eq_right hb

/-- C1 witness: the amended profile instantiated at the spec's concrete
    scenario, actuator 3 with travel 25 out of 100 at base velocity 150. -/
theorem C1_velocity_profile_witness :
    ∃ g, ((3:ℕ), g) ∈ ([(1,100),(2,50),(3,25)] : List (ℕ × ℤ)) ∧
      (37:ℕ) = max 1 (travelOf (fun _ => 0) 3 g * 150 /
          maxTravel [(1,100),(2,50),(3,25)] (fun _ => 0)) ∧
      (travelOf (fun _ => 0) 3 g = maxTravel [(1,100),(2,50),(3,25)] (fun _ => 0) →
        (37:ℕ) = 150) :=
  ((C1_velocity_profile [] 150 [] [] (fun _ => none) (by decide)).2
    [(1,100),(2,50),(3,25)] (fun _ => 0) (by decide) (3,37) (by decide)).2

/-- A polling step never adds ids to the pending set. -/
theorem mem_of_mem_pollStep {openPorts : List String}
    {read : String → Option (ℕ → Option ℕ)} {pend : List ℕ}
    {pp : String × List ℕ} {i : ℕ}
    (h : i ∈ pollStep openPorts read pend pp) : i ∈ pend := by
  unfold pollStep at h
  split at h
  · exact h
  · split at h
    · cases hr : read pp.1 with
      | none => rw [hr] at h; exact h
      | some flags => rw [hr] at h; exact (List.mem_filter.1 h).1
    · exact h

/-- A polling step keeps a pending id when the port read failed or the id is
    not on the port. -/
theorem mem_pollStep_keep {openPorts : List String}
    {read : String → Option (ℕ → Option ℕ)} {pend : List ℕ}
    {pp : String × List ℕ} {i : ℕ} (hi : i ∈ pend)
    (hkeep : read pp.1 = none ∨ pp.2.contains i = false) :
    i ∈ pollStep openPorts read pend pp := by
  unfold pollStep
  split
  · exact hi
  · split
    · rcases hkeep with hr | hc
      · rw [hr]; exact hi
      · cases hr : read pp.1 with
        | none => exact hi
        | some flags =>
          refine List.mem_filter.2 ⟨hi, ?_⟩
          simp only [decide_eq_true_eq]
          intro hand
          rw [hc] at hand
          exact Bool.false_ne_true hand.1
    · exact hi

/-- A polling cycle never adds ids to the pending set. -/
theorem mem_of_mem_pollCycle {ports : List (String × List ℕ)}
    {openPorts : List String} {read : String → Option (ℕ → Option ℕ)}
    {pending : List ℕ} {i : ℕ}
    (h : i ∈ pollCycle ports openPorts read pending) : i ∈ pending := by
  unfold pollCycle at h
  induction ports generalizing pending with
  | nil => exact h
  | cons pp t ih =>
    simp only [List.foldl_cons] at h
    exact mem_of_mem_pollStep (ih h)

/-- A polling cycle keeps a pending id all of whose ports had failed reads. -/
theorem mem_pollCycle_keep {ports : List (String × List ℕ)}
    {openPorts : List String} {read : String → Option (ℕ → Option ℕ)}
    {pending : List ℕ} {p : String} {i : ℕ}
    (hr : read p = none) (hi : i ∈ pending)
    (honly : ∀ q ∈ ports, q.2.contains i = true → q.1 = p) :
    i ∈ pollCycle ports openPorts read pending := by
  unfold pollCycle
  induction ports generalizing pending with
  | nil => exact hi
  | cons pp t ih =>
    simp only [List.foldl_cons]
    refine ih ?_ fun q hq => honly q (List.mem_cons_of_mem pp hq)
    by_cases hc : pp.2.contains i = true
    · have hp : pp.1 = p := honly pp (List.mem_cons_self pp t) hc
      exact mem_pollStep_keep hi (Or.inl (hp ▸ hr))
    · exact mem_pollStep_keep hi (Or.inr (Bool.eq_false_iff.2 hc))

/-- C2 (code bug): with a goal set mapping id 99 (absent from the manifest)
    the pending set is seeded unrestricted to [99], and no number of polling
    cycles empties it even though every read succeeds with moving = 0 — the
    poller never terminates, contradicting the claim. -/
theorem C2_poller_hangs_on_unknown_id :
    pendingInit [((99:ℕ), (512:ℤ))] = [99] ∧
    ¬ pollerTerminates [(99, 512)] exampleManifest ["COM1"]
        (fun _ _ => some fun _ => some 0) := by
  refine ⟨rfl, ?_⟩
  rintro ⟨n, hn⟩
  have h : ∀ m, pollAfter (servosByPort exampleManifest (pendingInit [(99, 512)]))
      ["COM1"] (fun _ _ => some fun _ => some 0) (pendingInit [(99, 512)]) m = [99] := by
    intro m
    induction m with
    | zero => rfl
    | succ k ih =>
      show pollCycle _ _ _ (pollAfter _ _ _ _ k) = [99]
      rw [ih]
      rfl
  rw [h n] at hn
  exact List.cons_ne_nil 99 [] hn

/-- C8: the Completion Poller pending set only shrinks — a cycle result
    is contained in its input, successive cycles are decreasing, and a
    bus-level read failure leaves that bus pending actuators in place for
    the next cycle. -/
theorem C8_pending_monotone :
    (∀ (ports : List (String × List ℕ)) (openPorts : List String)
        (read : String → Option (ℕ → Option ℕ)) (pending : List ℕ) (i : ℕ),
        i ∈ pollCycle ports openPorts read pending → i ∈ pending) ∧
    (∀ (ports : List (String × List ℕ)) (openPorts : List String)
        (reads : ℕ → String → Option (ℕ → Option ℕ)) (pending0 : List ℕ)
        (n : ℕ) (i : ℕ),
        i ∈ pollAfter ports openPorts reads pending0 (n + 1) →
        i ∈ pollAfter ports openPorts reads pending0 n) ∧
    (∀ (ports : List (String × List ℕ)) (openPorts : List String)
        (read : String → Option (ℕ → Option ℕ)) (pending : List ℕ)
        (p : String) (i : ℕ),
        read p = none → i ∈ pending →
        (∀ q ∈ ports, q.2.contains i = true → q.1 = p) →
        i ∈ pollCycle ports openPorts read pending) :=
  ⟨fun _ _ _ _ _ h => mem_of_mem_pollCycle h,
   fun _ _ _ _ _ _ h => mem_of_mem_pollCycle h,
   fun _ _ _ _ _ _ hr hi honly => mem_pollCycle_keep hr hi honly⟩

/-- C8 witness: an id polled on a bus whose read fails is still pending
    after the cycle. -/
theorem C8_witness :
    (7:ℕ) ∈ pollCycle [("COM1", [7])] ["COM1"] (fun _ => none) [7] :=
  C8_pending_monotone.2.2 [("COM1", [7])] ["COM1"] (fun _ => none) [7] "COM1" 7 rfl
    (by decide) (by decide)


/-- A failed port open makes the opened-port count fall short. -/
theorem openedPorts_length_ne {manifest : List Servo} {openOk : String → Bool}
    (h : ∃ p ∈ uniquePorts manifest, openOk p = false) :
    (openedPorts manifest openOk).length ≠ (uniquePorts manifest).length := by
  obtain ⟨p, hp, hfail⟩ := h
  intro heq
  have := List.filter_length_eq_length.1 heq p hp
  rw [hfail] at this
  exact Bool.false_ne_true this

/-- A full opened-port count means every port opened. -/
theorem all_open_of_length_eq {manifest : List Servo} {openOk : String → Bool}
    (heq : (openedPorts manifest openOk).length = (uniquePorts manifest).length) :
    ∀ p ∈ uniquePorts manifest, openOk p = true :=
  List.filter_length_eq_length.1 heq

/-- The safety gate fails exactly when some polled port grouped read fails
    or some servo torque-enable register is unavailable or not 1. -/
theorem checkTorque_false_iff (manifest : List Servo) (ports : List String)
    (read : String → Option (ℕ → Option ℕ)) :
    checkTorqueStatus manifest ports read = false ↔
      ∃ p ∈ ports, read p = none ∨ ∃ flags, read p = some flags ∧
        ∃ s ∈ servosOnPort manifest p, flags s.id ≠ some 1 := by
  unfold checkTorqueStatus
  rw [List.all_eq_false]
  constructor
  · rintro ⟨p, hp, hfail⟩
    refine ⟨p, hp, ?_⟩
    split at hfail
    next hr => exact Or.inl hr
    next flags hr =>
      right
      refine ⟨flags, hr, ?_⟩
      rw [Bool.not_eq_true, List.all_eq_false] at hfail
      obtain ⟨s, hs, hsf⟩ := hfail
      exact ⟨s, hs, by simpa using hsf⟩
  · rintro ⟨p, hp, hfail⟩
    refine ⟨p, hp, ?_⟩
    rcases hfail with hr | ⟨flags, hr, s, hs, hsf⟩
    · rw [hr]
      simp
    · rw [hr]
      show ¬ ((servosOnPort manifest p).all fun s => flags s.id = some 1) = true
      rw [Bool.not_eq_true, List.all_eq_false]
      exact ⟨s, hs, by simpa using hsf⟩

/-- C3 counterexample: a run whose script processing raises opens its bus
    but the trace contains no close for it — teardown is skipped on the
    exception path. -/
theorem C3_counterexample_exception_skips_close :
    RunEvent.openEv "COM1" ∈ runAnimation exampleManifest (fun _ => true)
        (fun _ => some fun _ => some 1) [] true ∧
    RunEvent.closeEv "COM1" ∉ runAnimation exampleManifest (fun _ => true)
        (fun _ => some fun _ => some 1) [] true := by
  decide

/-- C3 (amended): on normal completion and on both abort paths (failed bus
    open, failed safety check) every opened connection is closed before the
    run ends; only an exception escaping script processing skips teardown. -/
theorem C3_teardown_except_exception (manifest : List Servo) (openOk : String → Bool)
    (torqueRead : String → Option (ℕ → Option ℕ)) (scriptTxs : List BusTx)
    (scriptRaises : Bool)
    (h : scriptRaises = false
       ∨ (openedPorts manifest openOk).length ≠ (uniquePorts manifest).length
       ∨ checkTorqueStatus manifest (openedPorts manifest openOk) torqueRead = false)
    (p : String)
    (hopen : RunEvent.openEv p ∈ runAnimation manifest openOk torqueRead scriptTxs scriptRaises) :
    RunEvent.closeEv p ∈ runAnimation manifest openOk torqueRead scriptTxs scriptRaises := by
  unfold runAnimation at hopen ⊢
  by_cases hlen : (openedPorts manifest openOk).length = (uniquePorts manifest).length
  · rw [if_pos hlen] at hopen ⊢
    by_cases hgate : checkTorqueStatus manifest (openedPorts manifest openOk) torqueRead = true
    · rw [if_pos hgate] at hopen ⊢
      have hs : scriptRaises = false := by
        rcases h with hs | hl | hg
        · exact hs
        · exact absurd hlen hl
        · rw [hgate] at hg
          exact absurd hg (by simp)
      rw [hs] at hopen ⊢
      simp only [if_false, Bool.false_eq_true] at hopen ⊢
      simp only [List.mem_append, List.mem_map, List.mem_singleton] at hopen ⊢
      rcases hopen with ((⟨q, hq, heq⟩ | hg) | ⟨tx, htx, heq⟩) | ⟨q, hq, heq⟩
      · injection heq with h1
        exact Or.inr ⟨q, hq, by rw [h1]⟩
      · exact absurd hg (by simp)
      · exact absurd heq (by simp)
      · exact absurd heq (by simp)
    · rw [if_neg hgate] at hopen ⊢
      simp only [List.mem_append, List.mem_map, List.mem_singleton] at hopen ⊢
      rcases hopen with (⟨q, hq, heq⟩ | hg) | ⟨q, hq, heq⟩
      · injection heq with h1
        exact Or.inr ⟨q, hq, by rw [h1]⟩
      · exact absurd hg (by simp)
      · exact absurd heq (by simp)
  · rw [if_neg hlen] at hopen ⊢
    simp only [List.mem_append, List.mem_map] at hopen ⊢
    rcases hopen with ⟨q, hq, heq⟩ | ⟨q, hq, heq⟩
    · injection heq with h1
      exact Or.inr ⟨q, hq, by rw [h1]⟩
    · exact absurd heq (by simp)

/-- C3 witness: a normally completing run closes its opened bus. -/
theorem C3_witness :
    RunEvent.closeEv "COM1" ∈ runAnimation exampleManifest (fun _ => true)
        (fun _ => some fun _ => some 1) [] false :=
  C3_teardown_except_exception exampleManifest (fun _ => true)
    (fun _ => some fun _ => some 1) [] false (Or.inl rfl) "COM1" (by decide)


/-- C4: when all buses opened and the pre-flight safety gate fails, the run
    trace is exactly opens, the failed gate, and closes — zero write
    transactions afterwards and every opened connection torn down — and the
    gate fails exactly when some involved actuator motion-enable register
    is unreadable or not the enabled sentinel. -/
theorem C4_failed_gate_blocks_writes (manifest : List Servo) (openOk : String → Bool)
    (torqueRead : String → Option (ℕ → Option ℕ)) (scriptTxs : List BusTx)
    (scriptRaises : Bool)
    (hlen : (openedPorts manifest openOk).length = (uniquePorts manifest).length)
    (hgate : checkTorqueStatus manifest (openedPorts manifest openOk) torqueRead = false) :
    runAnimation manifest openOk torqueRead scriptTxs scriptRaises =
      (openedPorts manifest openOk).map RunEvent.openEv ++ [RunEvent.gateEv false]
        ++ (openedPorts manifest openOk).map RunEvent.closeEv ∧
    (∀ tx, RunEvent.writeEv tx ∉ runAnimation manifest openOk torqueRead scriptTxs scriptRaises) ∧
    (∀ p, RunEvent.openEv p ∈ runAnimation manifest openOk torqueRead scriptTxs scriptRaises →
       RunEvent.closeEv p ∈ runAnimation manifest openOk torqueRead scriptTxs scriptRaises) ∧
    (∀ (ports : List String) (read : String → Option (ℕ → Option ℕ)),
       checkTorqueStatus manifest ports read = false ↔
         ∃ p ∈ ports, read p = none ∨
           ∃ flags, read p = some flags ∧
             ∃ s ∈ servosOnPort manifest p, flags s.id ≠ some 1) := by
  have htr : runAnimation manifest openOk torqueRead scriptTxs scriptRaises =
      (openedPorts manifest openOk).map RunEvent.openEv ++ [RunEvent.gateEv false]
        ++ (openedPorts manifest openOk).map RunEvent.closeEv := by
    unfold runAnimation
    rw [if_pos hlen, hgate]
    simp
  refine ⟨htr, ?_, ?_, checkTorque_false_iff manifest⟩
  · intro tx htx
    rw [htr] at htx
    simp only [List.mem_append, List.mem_map, List.mem_singleton] at htx
    rcases htx with (⟨q, hq, heq⟩ | hg) | ⟨q, hq, heq⟩
    · exact absurd heq (by simp)
    · exact absurd hg (by simp)
    · exact absurd heq (by simp)
  · intro p hp
    rw [htr] at hp ⊢
    simp only [List.mem_append, List.mem_map, List.mem_singleton] at hp ⊢
    rcases hp with (⟨q, hq, heq⟩ | hg) | ⟨q, hq, heq⟩
    · injection heq with h1
      exact Or.inr ⟨q, hq, by rw [h1]⟩
    · exact absurd hg (by simp)
    · exact absurd heq (by simp)

/-- C4 witness: a concrete run with torque disabled produces only open,
    failed gate, close — its pending script write is never issued. -/
theorem C4_witness :
    runAnimation exampleManifest (fun _ => true) (fun _ => some fun _ => some 0)
        [BusTx.velWrite "COM1" [(1, 150)]] false
      = [RunEvent.openEv "COM1", RunEvent.gateEv false, RunEvent.closeEv "COM1"] :=
  (C4_failed_gate_blocks_writes exampleManifest (fun _ => true)
    (fun _ => some fun _ => some 0) [BusTx.velWrite "COM1" [(1, 150)]] false rfl rfl).1

/-- C5: bus acquisition is all-or-nothing — if any bus fails to open, the
    trace is exactly opens then closes (every opened connection closed, no
    safety gate, no write), and the gate only ever runs when every distinct
    bus opened. -/
theorem C5_all_or_nothing (manifest : List Servo) (openOk : String → Bool)
    (torqueRead : String → Option (ℕ → Option ℕ)) (scriptTxs : List BusTx)
    (scriptRaises : Bool) :
    ((∃ p ∈ uniquePorts manifest, openOk p = false) →
       runAnimation manifest openOk torqueRead scriptTxs scriptRaises =
         (openedPorts manifest openOk).map RunEvent.openEv
           ++ (openedPorts manifest openOk).map RunEvent.closeEv ∧
       (∀ p, RunEvent.openEv p ∈ runAnimation manifest openOk torqueRead scriptTxs scriptRaises →
          RunEvent.closeEv p ∈ runAnimation manifest openOk torqueRead scriptTxs scriptRaises) ∧
       (∀ b, RunEvent.gateEv b ∉ runAnimation manifest openOk torqueRead scriptTxs scriptRaises) ∧
       (∀ tx, RunEvent.writeEv tx ∉ runAnimation manifest openOk torqueRead scriptTxs scriptRaises)) ∧
    (∀ b, RunEvent.gateEv b ∈ runAnimation manifest openOk torqueRead scriptTxs scriptRaises →
       ∀ p ∈ uniquePorts manifest, openOk p = true) := by
  constructor
  · intro hfail
    have hlen := openedPorts_length_ne hfail
    have htr : runAnimation manifest openOk torqueRead scriptTxs scriptRaises =
        (openedPorts manifest openOk).map RunEvent.openEv
          ++ (openedPorts manifest openOk).map RunEvent.closeEv := by
      unfold runAnimation
      rw [if_neg hlen]
    refine ⟨htr, ?_, ?_, ?_⟩
    · intro p hp
      rw [htr] at hp ⊢
      simp only [List.mem_append, List.mem_map] at hp ⊢
      rcases hp with ⟨q, hq, heq⟩ | ⟨q, hq, heq⟩
      · injection heq with h1
        exact Or.inr ⟨q, hq, by rw [h1]⟩
      · exact absurd heq (by simp)
    · intro b hb
      rw [htr] at hb
      simp only [List.mem_append, List.mem_map] at hb
      rcases hb with ⟨q, hq, heq⟩ | ⟨q, hq, heq⟩
      · exact absurd heq (by simp)
      · exact absurd heq (by simp)
    · intro tx htx
      rw [htr] at htx
      simp only [List.mem_append, List.mem_map] at htx
      rcases htx with ⟨q, hq, heq⟩ | ⟨q, hq, heq⟩
      · exact absurd heq (by simp)
      · exact absurd heq (by simp)
  · intro b hb
    by_cases hlen : (openedPorts manifest openOk).length = (uniquePorts manifest).length
    · exact all_open_of_length_eq hlen
    · exfalso
      unfold runAnimation at hb
      rw [if_neg hlen] at hb
      simp only [List.mem_append, List.mem_map] at hb
      rcases hb with ⟨q, hq, heq⟩ | ⟨q, hq, heq⟩
      · exact absurd heq (by simp)
      · exact absurd heq (by simp)

/-- C5 witness: a run in which every port fails to open produces an empty
    trace. -/
theorem C5_witness :
    runAnimation exampleManifest (fun _ => false) (fun _ => none) [] false = [] :=
  ((C5_all_or_nothing exampleManifest (fun _ => false) (fun _ => none) [] false).1
    ⟨"COM1", by decide, rfl⟩).1


/-- Entering one more script folds its factor into the accumulated
    multiplier. -/
theorem pathMult_cons (m sp : ℚ) (path : List ℚ) :
    pathMult m (sp :: path) = pathMult (nestedMult m sp) path := rfl

/-- C6 (amended): the velocities handed to the Executor are, leaf by leaf,
    the truncation of (override or enclosing base velocity) times the
    multiplier accumulated along the enclosing scripts. -/
theorem C6_leaf_velocity (bv : ℕ) (m : ℚ) (items : List ScriptItem) :
    (processItems bv m items).map Prod.snd =
      (leafInfos bv items).map fun t => pyTrunc ((t.1.getD t.2.1 : ℕ) * pathMult m t.2.2) := by
  induction bv, m, items using processItems.induct with
  | case1 bv m => simp [processItems, leafInfos]
  | case2 bv m goals ov rest ih =>
    simp only [processItems, leafInfos, List.map_cons]
    rw [ih]
    rfl
  | case3 bv m sp bv2 sub rest ih1 ih2 =>
    simp only [processItems, leafInfos, List.map_append, List.map_map, Function.comp]
    rw [ih2]
    rw [ih1]
    rfl

/-- C6 counterexample: a leaf with base velocity 150 at multiplier 1/4 is
    executed at velocity 37 (truncation), while the round of the claim gives
    38. -/
theorem C6_counterexample_truncation :
    processItems 150 (1 / 4) [ScriptItem.leafStep [(1, 0)] none] = [([(1, 0)], 37)] ∧
    specRound ((150 : ℚ) * (1 / 4)) = 38 ∧ (37 : ℤ) ≠ 38 := by
  refine ⟨?_, ?_, by decide⟩
  · simp [processItems, leafVelocity, pyTrunc]
    norm_num
  · unfold specRound
    norm_num

/-- C7: nested-script speed multipliers compose multiplicatively — the
    interpreter recurses with `m * (speed / 100)`, the accumulated multiplier
    is the product of the factors along the path, 50 nested in 50 gives 1/4,
    and a concrete 50-in-50 script runs its leaf (base 100) at velocity 25. -/
theorem C7_multiplier_composition :
    (∀ (bv : ℕ) (m sp : ℚ) (bv2 : Option ℕ) (sub rest : List ScriptItem),
       processItems bv m (ScriptItem.nestedStep sp bv2 sub :: rest) =
         processItems (bv2.getD DEFAULT_BASE_VELOCITY) (m * (sp / 100)) sub
           ++ processItems bv m rest) ∧
    (∀ (m : ℚ) (path : List ℚ),
       pathMult m path = m * (path.map fun sp => sp / 100).prod) ∧
    nestedMult (nestedMult 1 50) 50 = 1 / 4 ∧
    processItems 150 1 [ScriptItem.nestedStep 50 none
        [ScriptItem.nestedStep 50 (some 100) [ScriptItem.leafStep [(1, 0)] none]]]
      = [([(1, 0)], 25)] := by
  refine ⟨?_, ?_, by norm_num [nestedMult], ?_⟩
  · intro bv m sp bv2 sub rest
    simp [processItems, nestedMult]
  · intro m path
    induction path generalizing m with
    | nil => simp [pathMult]
    | cons sp t ih =>
      rw [pathMult_cons, ih]
      simp [nestedMult, mul_assoc]
  · simp [processItems, leafVelocity, pyTrunc, nestedMult]
    norm_num

end Sequencer
